import Mathlib

/-!
Verification of the goose migration engine (files migrate.go, up.go and the
Migration struct file of the repository) against its natural-language
specification.  The Go code is shallowly embedded: Go strings are lists of
characters, 64-bit integer versions are `Int` (only order comparisons and the
explicitly clamped `strconv.ParseInt` results matter, so no modular arithmetic
is needed), Go panics and Go errors are modelled by explicit sum types, and
database transactions are modelled by explicit state passing with failure
oracles for the external driver calls.
-/

namespace Goose

/-- Go strings, as lists of characters (goose only ever handles ASCII names). -/
abbrev GoStr := List Char

/-- The extension ".go" compared against by the Go sources. -/
def goExtStr : GoStr := ['.', 'g', 'o']

/-- The extension ".sql" compared against by the Go sources. -/
def sqlExtStr : GoStr := ['.', 's', 'q', 'l']

/-- Helper for `filepath.Base`: drop trailing path separators. -/
def stripTrailingSlashes (p : GoStr) : GoStr :=
  (p.reverse.dropWhile (fun c => c == '/')).reverse

/-- Helper for `filepath.Base`: keep everything after the last separator. -/
def afterLastSlash (p : GoStr) : GoStr :=
  (p.reverse.takeWhile (fun c => c != '/')).reverse

/-- Model of Go `filepath.Base` on a Unix path: empty path gives ".", a path of
only separators gives "/", otherwise the last element with trailing separators
removed. -/
def filepathBase (p : GoStr) : GoStr :=
  if p = [] then ['.']
  else if stripTrailingSlashes p = [] then ['/']
  else afterLastSlash (stripTrailingSlashes p)

/-- Helper for `filepath.Ext`: scan the reversed path; stop with no extension at
a separator, and return the suffix from the last dot otherwise.  The
accumulator carries the characters already passed, in forward order. -/
def filepathExtAux : GoStr → GoStr → GoStr
  | [], _ => []
  | c :: rest, acc =>
    if c = '/' then []
    else if c = '.' then '.' :: acc
    else filepathExtAux rest (c :: acc)

/-- Model of Go `filepath.Ext`: the suffix of the final path element starting
at its last dot, or empty when there is none. -/
def filepathExt (p : GoStr) : GoStr := filepathExtAux p.reverse []

/-- Model of Go `strings.Index(s, "_")` restricted to a single character
needle: the first index of the character, `none` standing for Go result -1. -/
def indexOfChar : GoStr → Char → Option Nat
  | [], _ => none
  | c :: rest, t => if c = t then some 0 else (indexOfChar rest t).map (· + 1)

/-- Numeric value of a decimal digit character. -/
def digitVal (c : Char) : Nat := c.toNat - '0'.toNat

/-- Parse a non-empty all-digit string to a natural number, as the digit loop
of Go `strconv.ParseUint` does for base 10. -/
def parseDigits (ds : GoStr) : Option Nat :=
  if ds = [] then none
  else if ds.all Char.isDigit then some (ds.foldl (fun a c => a * 10 + digitVal c) 0)
  else none

/-- Failure modes of Go `strconv.ParseInt`: `malformed` models ErrSyntax and
`outOfRange` models ErrRange. -/
inductive NumErr
  | malformed
  | outOfRange
deriving DecidableEq

/-- Largest signed 64-bit integer, math.MaxInt64. -/
def int64Max : Int := 9223372036854775807

/-- Smallest signed 64-bit integer, math.MinInt64. -/
def int64Min : Int := -9223372036854775808

/-- Split the optional leading sign off a numeric string, as the prologue of
Go `strconv.ParseInt` does. -/
def signSplit (s : GoStr) : Bool × GoStr :=
  match s with
  | '-' :: t => (true, t)
  | '+' :: t => (false, t)
  | t => (false, t)

/-- Model of Go `strconv.ParseInt(s, 10, 64)`.  An optional sign is followed by
decimal digits; a syntax failure yields value 0, and a value outside the signed
64-bit range yields the clamped extreme together with the range error, exactly
as documented for the Go standard library. -/
def strconvParseInt (s : GoStr) : Int × Option NumErr :=
  match parseDigits (signSplit s).2 with
  | none => (0, some NumErr.malformed)
  | some n =>
    if (signSplit s).1 then
      if (n : Int) > 9223372036854775808 then (int64Min, some NumErr.outOfRange)
      else (-(n : Int), none)
    else
      if (n : Int) > int64Max then (int64Max, some NumErr.outOfRange)
      else ((n : Int), none)

/-- Errors of `NumericComponent`; the constructors mirror the four error
returns of the Go function ("not a recognized migration file type",
"no separator found", the error propagated from `strconv.ParseInt`, and
"migration IDs must be greater than zero"). -/
inductive NCErr
  | notMigrationType
  | noSeparator
  | nonPositive
  | parseFailed (e : NumErr)
deriving DecidableEq

/-- Model of `NumericComponent` (up.go): take the base name, require a ".go" or
".sql" extension, find the first underscore, parse the prefix before it with
`strconv.ParseInt`, and reject non-positive parsed values.  Like the Go
function it returns the parsed value together with the error, and the value
accompanying an error is whatever ParseInt produced (0, or a clamped extreme
on range overflow). -/
def NumericComponent (name : GoStr) : Int × Option NCErr :=
  let base := filepathBase name
  if filepathExt base ≠ goExtStr ∧ filepathExt base ≠ sqlExtStr then
    (0, some NCErr.notMigrationType)
  else
    match indexOfChar base '_' with
    | none => (0, some NCErr.noSeparator)
    | some idx =>
      let r := strconvParseInt (base.take idx)
      match r.2 with
      | none => if r.1 ≤ 0 then (0, some NCErr.nonPositive) else (r.1, none)
      | some e => (r.1, some (NCErr.parseFailed e))

/-- One row of the migration history table as the run model sees it: the
version written by the dialect insertVersionSQL together with its applied
flag.  Modelled from the spec: the dialect interface
`insertRecord(version, applied)` / `deleteRecord(version)` is an external
collaborator, so only the data it writes is kept. -/
abbrev HistoryRow := Int × Bool

/-- The committed migration-history state of the database, oldest row first. -/
abbrev DBState := List HistoryRow

/-- Dialect insertVersionSQL: append a history row for the version. -/
def insertRecord (v : Int) (applied : Bool) (db : DBState) : DBState :=
  db ++ [(v, applied)]

/-- Dialect deleteVersionSQL: remove every history row of the version. -/
def deleteRecord (v : Int) (db : DBState) : DBState :=
  db.filter (fun r => r.1 != v)

/-- The Migration struct of the Go sources.  UpFn and DownFn act on the
transaction-local database state and may fail with a Go error message. -/
structure Migration where
  Version : Int
  Next : Int
  Previous : Int
  Source : GoStr
  Registered : Bool
  Applied : Bool
  UpFn : Option (DBState → Except GoStr DBState)
  DownFn : Option (DBState → Except GoStr DBState)

/-- A migration carrying only a version, as built by CollectMigrations before
linking: Next and Previous start at -1 and no functions are attached. -/
def mkMig (v : Int) : Migration :=
  { Version := v, Next := -1, Previous := -1, Source := [], Registered := false,
    Applied := false, UpFn := none, DownFn := none }

/-- Placeholder used only for the total array-read helper `getMig`; every read
performed by the embedded code is in bounds. -/
def defaultMigration : Migration := mkMig 0

/-- The Migrations slice of the Go sources. -/
abbrev Migrations := List Migration

/-- The two goose panics raised on duplicate versions: the registration-time
panic of AddNamedMigration ("failed to add migration %q: version conflicts
with %q") and the sort-time panic of Migrations.Less ("goose: duplicate
version %v detected"). -/
inductive GoosePanic
  | duplicateRegistration (filename existing : GoStr)
  | duplicateVersion (v : Int) (s1 s2 : GoStr)

/-- Model of `Migrations.Less` (migrate.go): comparing two migrations with
equal versions panics, otherwise the versions are compared with `<`.  Where Go
passes slice indices, the model passes the two compared elements. -/
def Migrations.Less (a b : Migration) : Except GoosePanic Bool :=
  if a.Version = b.Version then
    Except.error (GoosePanic.duplicateVersion a.Version a.Source b.Source)
  else Except.ok (decide (a.Version < b.Version))

/-- Insertion step of the panic-aware sort model: place `m` into an already
sorted list using `Migrations.Less`, propagating its panic. -/
def insertSortE (m : Migration) : List Migration → Except GoosePanic (List Migration)
  | [] => Except.ok [m]
  | x :: xs =>
    match Migrations.Less m x with
    | Except.error p => Except.error p
    | Except.ok true => Except.ok (m :: x :: xs)
    | Except.ok false =>
      match insertSortE m xs with
      | Except.error p => Except.error p
      | Except.ok ys => Except.ok (x :: ys)

/-- Model of `sort.Sort(migrations)` with the panicking `Migrations.Less`
comparator.  The standard library sorts small slices by insertion sort and in
all cases orders equal-rank elements through Less calls, so the sort is
modelled as insertion sort; a Less panic aborts the whole sort. -/
def sortSortE : List Migration → Except GoosePanic (List Migration)
  | [] => Except.ok []
  | m :: ms =>
    match sortSortE ms with
    | Except.error p => Except.error p
    | Except.ok l => insertSortE m l

/-- Total ascending-by-version insertion step, used where the embedded code
sorts a set already known to have pairwise-distinct versions (for such inputs
any correct comparison sort, in particular Go sort.Sort, produces the same
unique strictly ascending arrangement). -/
def insertByVersion (m : Migration) : List Migration → List Migration
  | [] => [m]
  | x :: xs => if m.Version < x.Version then m :: x :: xs else x :: insertByVersion m xs

/-- Total ascending-by-version sort, see `insertByVersion`. -/
def sortByVersion : List Migration → List Migration
  | [] => []
  | m :: ms => insertByVersion m (sortByVersion ms)

/-- In-place read of the sorted migrations array; Go mutates shared pointers,
which the model renders as reads and writes through positions of one list. -/
def getMig (arr : List Migration) (i : Nat) : Migration := arr.getD i defaultMigration

/-- Write the Next field of the migration at position i. -/
def setNext (arr : List Migration) (i : Nat) (v : Int) : List Migration :=
  arr.set i { getMig arr i with Next := v }

/-- Write the Previous field of the migration at position i. -/
def setPrev (arr : List Migration) (i : Nat) (v : Int) : List Migration :=
  arr.set i { getMig arr i with Previous := v }

/-- One iteration of the applied-connection loop of
`sortAndConnectAllMigrations` (migrate.go).  Faithful to the source, the body
indexes the FULL sorted slice `migrations[i-1]` / `migrations[i]` with the
position i of the applied subsequence am, while reading the version of
`am[i]`. -/
def connectAppliedStep (amIdx : List Nat) (arr : List Migration) (i : Nat) : List Migration :=
  if i = 0 then setPrev arr 0 (-1)
  else
    let mV := (getMig arr (amIdx.getD i 0)).Version
    let prevV := (getMig arr (i - 1)).Version
    setPrev (setNext arr (i - 1) mV) i prevV

/-- The applied-connection loop of `sortAndConnectAllMigrations`: iterate
`connectAppliedStep` over the positions of the applied subsequence. -/
def connectApplied (arr : List Migration) (amIdx : List Nat) : List Migration :=
  (List.range amIdx.length).foldl (connectAppliedStep amIdx) arr

/-- One iteration of the unapplied-connection loop of
`sortAndConnectAllMigrations`; this loop does address the unapplied
subsequence um through its own positions. -/
def connectUnappliedStep (umIdx : List Nat) (arr : List Migration) (i : Nat) : List Migration :=
  if i = 0 then setPrev arr (umIdx.getD 0 0) (-1)
  else
    let cur := umIdx.getD i 0
    let pre := umIdx.getD (i - 1) 0
    let mV := (getMig arr cur).Version
    let prevV := (getMig arr pre).Version
    setPrev (setNext arr pre mV) cur prevV

/-- The unapplied-connection loop of `sortAndConnectAllMigrations`. -/
def connectUnapplied (arr : List Migration) (umIdx : List Nat) : List Migration :=
  (List.range umIdx.length).foldl (connectUnappliedStep umIdx) arr

/-- Model of `sortAndConnectAllMigrations` (migrate.go).  The migrations are
sorted ascending by version (the callers only reach the sort with
pairwise-distinct versions; equal versions would panic, see `sortSortE`), the
positions of applied and unapplied migrations are collected as am and um, the
two connection loops run, and the tail of the Go function splices and
concatenates exactly as the source does. -/
def sortAndConnectAllMigrations (migrations : List Migration) (applied : Int → Bool) :
    List Migration :=
  let arr := sortByVersion migrations
  let amIdx := (List.range arr.length).filter (fun i => applied (getMig arr i).Version)
  let umIdx := (List.range arr.length).filter (fun i => ! applied (getMig arr i).Version)
  let arr1 := connectApplied arr amIdx
  let arr2 := connectUnapplied arr1 umIdx
  if amIdx.length = 0 then umIdx.map (getMig arr2)
  else if umIdx.length ≠ 0 then
    let arr3 := if umIdx.length = 1 then setNext arr2 (umIdx.getD 0 0) (-1) else arr2
    let lastAm := amIdx.getD (amIdx.length - 1) 0
    let arr4 := setNext arr3 lastAm ((getMig arr3 (umIdx.getD 0 0)).Version)
    let arr5 := setPrev arr4 (umIdx.getD 0 0) ((getMig arr4 lastAm).Version)
    (amIdx ++ umIdx).map (getMig arr5)
  else (amIdx ++ umIdx).map (getMig arr2)

/-- Linking of one already sorted partition as in simple ordering, used by the
specification-side reconciler: each element points back to its predecessor and
forward to its successor, the first gets previous = -1 and the last
next = -1. -/
def linkSimpleAux : List Migration → Int → List Migration
  | [], _ => []
  | [m], prevV => [{ m with Previous := prevV, Next := -1 }]
  | m :: m2 :: rest, prevV =>
    { m with Previous := prevV, Next := m2.Version } :: linkSimpleAux (m2 :: rest) m.Version

/-- Simple-ordering linking of a sorted list, first previous = -1. -/
def linkSimple (ms : List Migration) : List Migration := linkSimpleAux ms (-1)

/-- Set the Next field of the last element of a list. -/
def setLastNext : List Migration → Int → List Migration
  | [], _ => []
  | [m], v => [{ m with Next := v }]
  | m :: m2 :: rest, v => m :: setLastNext (m2 :: rest) v

/-- Modelled from the spec: reconciling ordering as the specification words it.
Partition the ascending sequence into the applied subsequence A and the
unapplied subsequence U, link each internally as in simple ordering, and when
both are non-empty splice them by pointing the last of A at the first of U and
back; the output is A followed by U. -/
def sortAndConnectAllMigrationsSpec (migrations : List Migration) (applied : Int → Bool) :
    List Migration :=
  let sorted := sortByVersion migrations
  let A := linkSimple (sorted.filter (fun m => applied m.Version))
  let U := linkSimple (sorted.filter (fun m => ! applied m.Version))
  match A, U with
  | [], _ => U
  | _ :: _, [] => A
  | a :: as, u :: us =>
    setLastNext (a :: as) u.Version ++
      ({ u with Previous := ((a :: as).getLastD defaultMigration).Version } :: us)

/-- Projection of the three linking-relevant fields, (Version, Next, Previous);
migration equality itself is not decidable because of the function fields. -/
def migTriple (m : Migration) : Int × Int × Int := (m.Version, m.Next, m.Previous)

/-- The registry of Go function migrations, modelled as an association list
from version to the registering filename (the Go map stores the whole
Migration struct; only the version key and the Source used by the panic
message matter here). -/
abbrev Registry := List (Int × GoStr)

/-- Model of `AddNamedMigration` (migrate.go): extract the version with
`NumericComponent` DISCARDING its error, panic if the version is already
registered, and otherwise register the migration under that version. -/
def AddNamedMigration (filename : GoStr) (reg : Registry) : Except GoosePanic Registry :=
  match List.lookup (NumericComponent filename).1 reg with
  | some existing => Except.error (GoosePanic.duplicateRegistration filename existing)
  | none => Except.ok (((NumericComponent filename).1, filename) :: reg)

/-- The two sentinel errors of migrate.go, ErrNoCurrentVersion and
ErrNoNextVersion. -/
inductive GooseErr
  | noCurrentVersion
  | noNextVersion
deriving DecidableEq

/-- Model of `Migrations.Current`: first migration with the given version,
ErrNoCurrentVersion when none matches. -/
def Migrations.Current : Migrations → Int → Except GooseErr Migration
  | [], _ => Except.error GooseErr.noCurrentVersion
  | m :: rest, current =>
    if m.Version = current then Except.ok m else Migrations.Current rest current

/-- Outcome of `Migrations.Next`, separating the runtime panic of the
unguarded `ms[0]` index from the returned Go errors. -/
inductive NextResult
  | panicIndexOutOfRange
  | failure (e : GooseErr)
  | found (m : Migration)

/-- Model of `Migrations.Next` (migrate.go): current version 0 returns `ms[0]`
unconditionally (an index-out-of-range panic on an empty slice); otherwise the
current migration is looked up, its Next field of -1 signals
ErrNoNextVersion, and the migration with that Next version is returned. -/
def Migrations.Next (ms : Migrations) (current : Int) : NextResult :=
  if current = 0 then
    match ms with
    | [] => NextResult.panicIndexOutOfRange
    | m :: _ => NextResult.found m
  else
    match Migrations.Current ms current with
    | Except.error e => NextResult.failure e
    | Except.ok cur =>
      if cur.Next = -1 then NextResult.failure GooseErr.noNextVersion
      else
        match Migrations.Current ms cur.Next with
        | Except.error e => NextResult.failure e
        | Except.ok next => NextResult.found next

/-- Model of `versionFilter` (migrate.go). -/
def versionFilter (v current target : Int) : Bool :=
  if target > current then decide (v > current) && decide (v ≤ target)
  else if target < current then decide (v ≤ current) && decide (v > target)
  else false

/-- Model of `unappliedVersionFilter` (migrate.go). -/
def unappliedVersionFilter (v current target : Int) (applied : Bool) : Bool :=
  if !applied then true
  else if target > current then decide (v > current) && decide (v ≤ target)
  else false

/-- One row of the history table as scanned by EnsureDBVersion.  The rows
arrive from the dialect query ordered descending by ID; the timestamp column
is never consulted and is omitted. -/
structure MigrationRecord where
  ID : Int
  VersionID : Int
  IsApplied : Bool
deriving DecidableEq

/-- The scan loop of `EnsureDBVersion` (migrate.go): walk the records,
skipping versions already collected in toSkip, return the first applied
version, collect rolled-back versions, and — in the source as written —
finish an exhausted scan with ErrNoNextVersion. -/
def ensureScanLoop : List MigrationRecord → List Int → Except GooseErr Int
  | [], _ => Except.error GooseErr.noNextVersion
  | row :: rest, toSkip =>
    if toSkip.contains row.VersionID then ensureScanLoop rest toSkip
    else if row.IsApplied then Except.ok row.VersionID
    else ensureScanLoop rest (toSkip ++ [row.VersionID])

/-- Model of `EnsureDBVersion` (migrate.go) on the rows delivered by the
dialect history query (descending by row ID); the table-creation branch on a
failing query is an external-collaborator concern and out of the claim. -/
def EnsureDBVersion (rows : List MigrationRecord) : Except GooseErr Int :=
  ensureScanLoop rows []

/-- Modelled from the spec: the State Reader currentVersion() scan, identical
walk to `ensureScanLoop` except that the specification has an exhausted scan
fail with NoCurrentVersion. -/
def currentVersionSpecScan : List MigrationRecord → List Int → Except GooseErr Int
  | [], _ => Except.error GooseErr.noCurrentVersion
  | row :: rest, toSkip =>
    if toSkip.contains row.VersionID then currentVersionSpecScan rest toSkip
    else if row.IsApplied then Except.ok row.VersionID
    else currentVersionSpecScan rest (toSkip ++ [row.VersionID])

/-- Modelled from the spec: currentVersion() of the State Reader. -/
def currentVersionSpec (rows : List MigrationRecord) : Except GooseErr Int :=
  currentVersionSpecScan rows []

/-- Replace the spec-side NoCurrentVersion outcome by the NoNextVersion error
the source actually returns, leaving every other outcome unchanged. -/
def collapseNoCurrent : Except GooseErr Int → Except GooseErr Int
  | Except.error GooseErr.noCurrentVersion => Except.error GooseErr.noNextVersion
  | r => r

/-- Failure oracles for the external database driver calls made by
Migration.run: each field holds the error message the corresponding call
(db.Begin, the insert Exec, the delete Exec, tx.Commit) fails with, or none
for success. -/
structure TxEnv where
  beginErr : Option GoStr
  insertErr : Option GoStr
  deleteErr : Option GoStr
  commitErr : Option GoStr

/-- The wrapped errors Migration.run can return.  Each constructor records the
data its Go message interpolates: "failed to run SQL migration %q" and
"failed to run Go migration %q" carry the base of the migration source,
the unregistered-function error carries the full source, while "failed to
begin transaction", "failed to execute transaction" and "failed to commit
transaction" carry only the underlying driver error. -/
inductive RunErr
  | sqlMigrationFailed (srcBase inner : GoStr)
  | goUnregistered (source : GoStr)
  | beginFailed (inner : GoStr)
  | goMigrationFailed (srcBase inner : GoStr)
  | execFailed (inner : GoStr)
  | commitFailed (inner : GoStr)
deriving DecidableEq

/-- The migration-source text a RunErr message carries, none when the message
names no migration. -/
def errSource : RunErr → Option GoStr
  | RunErr.sqlMigrationFailed b _ => some b
  | RunErr.goUnregistered s => some s
  | RunErr.goMigrationFailed b _ => some b
  | RunErr.beginFailed _ => none
  | RunErr.execFailed _ => none
  | RunErr.commitFailed _ => none

/-- Run the optional Go migration function on the transaction-local state;
a nil function is skipped, as in the source. -/
def applyFn (fn : Option (DBState → Except GoStr DBState)) (db : DBState) :
    Except GoStr DBState :=
  match fn with
  | none => Except.ok db
  | some f => f db

/-- The function selected by the direction flag: UpFn forward, DownFn
backward. -/
def dirFn (m : Migration) (dir : Bool) : Option (DBState → Except GoStr DBState) :=
  if dir then m.UpFn else m.DownFn

/-- The ".go" branch of `Migration.run` (the Migration struct source file):
reject unregistered migrations, begin a transaction, run the direction
function on the transaction state, then — only after it succeeded — execute
the history insert (forward, with the direction flag as the applied column)
or delete (backward) in the same transaction and commit.  Every failure path
performs tx.Rollback, so the committed database state is returned unchanged;
only a successful commit publishes the transaction state. -/
def runGo (m : Migration) (dir : Bool) (env : TxEnv) (db : DBState) :
    Option RunErr × DBState :=
  if m.Registered = false then (some (RunErr.goUnregistered m.Source), db)
  else
    match env.beginErr with
    | some e => (some (RunErr.beginFailed e), db)
    | none =>
      match applyFn (dirFn m dir) db with
      | Except.error e => (some (RunErr.goMigrationFailed (filepathBase m.Source) e), db)
      | Except.ok tx1 =>
        if dir then
          match env.insertErr with
          | some e => (some (RunErr.execFailed e), db)
          | none =>
            match env.commitErr with
            | some e => (some (RunErr.commitFailed e), db)
            | none => (none, insertRecord m.Version dir tx1)
        else
          match env.deleteErr with
          | some e => (some (RunErr.execFailed e), db)
          | none =>
            match env.commitErr with
            | some e => (some (RunErr.commitFailed e), db)
            | none => (none, deleteRecord m.Version tx1)

/-- Model of `Migration.run`: dispatch on the extension of the full Source
path.  The ".sql" branch hands the state to the external SQL runner and wraps
its failure naming the script; the ".go" branch is `runGo`; any other
extension falls out of the switch and returns nil with nothing executed. -/
def Migration.run (m : Migration) (dir : Bool) (env : TxEnv)
    (sqlRunner : DBState → Except GoStr DBState) (db : DBState) :
    Option RunErr × DBState :=
  if filepathExt m.Source = sqlExtStr then
    match sqlRunner db with
    | Except.error e => (some (RunErr.sqlMigrationFailed (filepathBase m.Source) e), db)
    | Except.ok db1 => (none, db1)
  else if filepathExt m.Source = goExtStr then runGo m dir env db
  else (none, db)

/-- Model of `Migration.Up`: run forward (the Go wrapper only adds logging on
success). -/
def Migration.Up (m : Migration) (env : TxEnv)
    (sqlRunner : DBState → Except GoStr DBState) (db : DBState) :
    Option RunErr × DBState :=
  Migration.run m true env sqlRunner db

/-- Model of `Migration.Down`: run backward. -/
def Migration.Down (m : Migration) (env : TxEnv)
    (sqlRunner : DBState → Except GoStr DBState) (db : DBState) :
    Option RunErr × DBState :=
  Migration.run m false env sqlRunner db

/-- Contract of the ".go" branch of Migration.run as amended: a nil error
means begin and commit succeeded, the direction function succeeded on the
transaction state, and the committed state is that transaction state with the
history record inserted (forward) or deleted (backward); any error leaves the
committed state untouched; a direction-function failure surfaces as the
wrapped error naming the base of the migration source; and every error is one
of the four transaction-step wraps. -/
def runGoContract (m : Migration) (dir : Bool) (env : TxEnv)
    (sqlRunner : DBState → Except GoStr DBState) (db : DBState) : Prop :=
  ((Migration.run m dir env sqlRunner db).1 = none →
      env.beginErr = none ∧ env.commitErr = none ∧
      ∃ tx1, applyFn (dirFn m dir) db = Except.ok tx1 ∧
        (Migration.run m dir env sqlRunner db).2 =
          (if dir then insertRecord m.Version dir tx1 else deleteRecord m.Version tx1))
  ∧ (∀ e, (Migration.run m dir env sqlRunner db).1 = some e →
      (Migration.run m dir env sqlRunner db).2 = db)
  ∧ (env.beginErr = none → ∀ msg, applyFn (dirFn m dir) db = Except.error msg →
      Migration.run m dir env sqlRunner db =
        (some (RunErr.goMigrationFailed (filepathBase m.Source) msg), db))
  ∧ (∀ e, (Migration.run m dir env sqlRunner db).1 = some e →
      (∃ msg, e = RunErr.beginFailed msg)
      ∨ (∃ msg, e = RunErr.goMigrationFailed (filepathBase m.Source) msg)
      ∨ (∃ msg, e = RunErr.execFailed msg)
      ∨ (∃ msg, e = RunErr.commitFailed msg))

/-- Applied-set {1, 3}, the reconciling example of the specification. -/
def appliedOneThree : Int → Bool := fun v => v == 1 || v == 3

/-- History with a single rolled-back version and no applied record. -/
def rolledBackOnly : List MigrationRecord := [{ ID := 1, VersionID := 1, IsApplied := false }]

/-- Registration filename "1_a.go". -/
def fnGoA : GoStr := ['1', '_', 'a', '.', 'g', 'o']

/-- Registration filename "001_b.go", carrying the same version 1 as
`fnGoA`. -/
def fnGoB : GoStr := ['0', '0', '1', '_', 'b', '.', 'g', 'o']

/-- Registry state after registering `fnGoA`. -/
def regAfterA : Registry := [((1 : Int), fnGoA)]

/-- Two distinct migrations sharing version 7. -/
def migDupA : Migration := { mkMig 7 with Source := ['a'] }

/-- Second migration of the duplicated pair. -/
def migDupB : Migration := { mkMig 7 with Source := ['b'] }

/-- A migration whose Previous field is deliberately not the -1 sentinel, to
exhibit that Next(0) ignores the link. -/
def migFirst : Migration := { mkMig 5 with Previous := 42 }

/-- Filename "x_y.txt" whose extension is not a migration type. -/
def fnTxt : GoStr := ['x', '_', 'y', '.', 't', 'x', 't']

/-- Filename "zz.go" with no separator. -/
def fnGoNoSep : GoStr := ['z', 'z', '.', 'g', 'o']

/-- Filename "99999999999999999999_x.go" whose numeric component overflows a
signed 64-bit integer. -/
def fnOverflow : GoStr :=
  ['9', '9', '9', '9', '9', '9', '9', '9', '9', '9', '9', '9', '9', '9', '9', '9', '9',
    '9', '9', '9', '_', 'x', '.', 'g', 'o']

/-- A registered Go function migration "007_x.go" whose functions leave the
transaction state unchanged and succeed. -/
def migGoOk : Migration :=
  { Version := 7, Next := -1, Previous := -1,
    Source := ['0', '0', '7', '_', 'x', '.', 'g', 'o'], Registered := true,
    Applied := false, UpFn := some (fun db => Except.ok db),
    DownFn := some (fun db => Except.ok db) }

/-- A migration with the unrecognized extension "123_x.txt". -/
def migTxt : Migration := { mkMig 9 with Source := ['1', '2', '3', '_', 'x', '.', 't', 'x', 't'] }

/-- Driver oracle with every call succeeding. -/
def envOk : TxEnv := { beginErr := none, insertErr := none, deleteErr := none, commitErr := none }

/-- Driver error message used by the failing oracles. -/
def boomMsg : GoStr := ['b', 'o', 'o', 'm']

/-- Driver oracle whose history-insert Exec fails. -/
def envInsFail : TxEnv :=
  { beginErr := none, insertErr := some boomMsg, deleteErr := none, commitErr := none }

/-- External SQL runner that succeeds without touching the state. -/
def runnerOk : DBState → Except GoStr DBState := fun db => Except.ok db

/-- A small non-empty database state. -/
def dbOne : DBState := [((1 : Int), true)]

/-- C1: on versions {1,2,3} with applied set {1,3} — the reconciling example
of the specification itself — the code output links the second applied
migration (version 3) with Previous = -1, while the claimed ordering (applied
partition linked internally as in simple ordering) demands Previous = 1, as
the specification-side reconciler produces: the applied-connection loop of
the source indexes the full sorted slice instead of the applied subsequence.
The returned order (applied ascending, then unapplied ascending) does hold on
this input; the internal linking of the applied partition does not. -/
theorem c1_applied_linking_eval :
    (sortAndConnectAllMigrations [mkMig 2, mkMig 1, mkMig 3] appliedOneThree).map migTriple
        = [(1, 3, -1), (3, 2, -1), (2, -1, 3)]
    ∧ (sortAndConnectAllMigrationsSpec [mkMig 2, mkMig 1, mkMig 3] appliedOneThree).map migTriple
        = [(1, 3, -1), (3, 2, 1), (2, -1, 3)] := by
  constructor
  · decide
  · decide

/-- C2 (counterexample): a history whose only record is a rollback exhausts
the scan, and the source returns ErrNoNextVersion — not the distinct
ErrNoCurrentVersion the claim names. -/
theorem c2_no_applied_returns_noNextVersion :
    EnsureDBVersion rolledBackOnly = Except.error GooseErr.noNextVersion
    ∧ GooseErr.noNextVersion ≠ GooseErr.noCurrentVersion := by
  exact ⟨rfl, by decide⟩

/-- The scan loop of the source and the scan the specification describes agree
record by record for any starting skip set, except that an exhausted scan
ends in ErrNoNextVersion in the source and NoCurrentVersion in the
specification. -/
theorem ensureScanLoop_eq_specScan :
    ∀ (rows : List MigrationRecord) (toSkip : List Int),
      ensureScanLoop rows toSkip = collapseNoCurrent (currentVersionSpecScan rows toSkip) := by
  intro rows
  induction rows with
  | nil => intro toSkip; rfl
  | cons row rest ih =>
    intro toSkip
    unfold ensureScanLoop currentVersionSpecScan
    by_cases h1 : row.VersionID ∈ toSkip
    · simp [h1, ih]
    · by_cases h2 : row.IsApplied
      · simp [h1, h2, collapseNoCurrent]
      · simp [h1, h2, ih]

/-- C2 (amended): EnsureDBVersion scans the history records in descending
row-identifier order, skipping every record whose version was already seen
with applied-flag false, and returns the version of the first remaining
record whose applied-flag is true, exactly as the specification scan does;
but when the scan exhausts with no applied record it fails with
ErrNoNextVersion — the very signal used for normal loop termination — rather
than a distinct NoCurrentVersion error. -/
theorem c2_ensureDBVersion_refines_spec :
    ∀ rows : List MigrationRecord,
      EnsureDBVersion rows = collapseNoCurrent (currentVersionSpec rows) := by
  intro rows
  exact ensureScanLoop_eq_specScan rows []

/-- C3: versionFilter selects the half-open interval (current, target] in
forward mode, (target, current] in backward mode, and nothing when the bounds
are equal; in particular v = target is included and v = current excluded in
both directions. -/
theorem c3_versionFilter_iff :
    ∀ v current target : Int,
      versionFilter v current target = true ↔
        ((target > current ∧ current < v ∧ v ≤ target)
          ∨ (target < current ∧ target < v ∧ v ≤ current)) := by
  intro v current target
  unfold versionFilter
  split_ifs with h1 h2
  · simp only [Bool.and_eq_true, decide_eq_true_eq]
    constructor
    · intro h; exact Or.inl ⟨h1, h.1, h.2⟩
    · intro h
      rcases h with ⟨_, hb, hc⟩ | ⟨ha, _, _⟩
      · exact ⟨hb, hc⟩
      · omega
  · simp only [Bool.and_eq_true, decide_eq_true_eq]
    constructor
    · intro h; exact Or.inr ⟨h2, h.2, h.1⟩
    · intro h
      rcases h with ⟨ha, _, _⟩ | ⟨_, hb, hc⟩
      · omega
      · exact ⟨hc, hb⟩
  · simp only [Bool.false_eq_true, false_iff]
    omega

/-- C6: unappliedVersionFilter admits every unapplied version unconditionally,
and an applied version exactly under the forward-only rule target > current
with current < v ≤ target; whenever target ≤ current an applied version is
rejected, so reconciling mode never selects an applied version for backward
movement. -/
theorem c6_unappliedVersionFilter_iff :
    ∀ (v current target : Int) (applied : Bool),
      unappliedVersionFilter v current target applied = true ↔
        (applied = false ∨ (target > current ∧ current < v ∧ v ≤ target)) := by
  intro v current target applied
  cases applied with
  | false => simp [unappliedVersionFilter]
  | true =>
    unfold unappliedVersionFilter
    simp only [Bool.not_true, Bool.false_eq_true, if_false]
    split_ifs with h1
    · simp only [Bool.and_eq_true, decide_eq_true_eq]
      constructor
      · intro h
        exact Or.inr ⟨h1, h.1, h.2⟩
      · intro h
        rcases h with h | ⟨_, hb, hc⟩
        · exact absurd h (by simp)
        · exact ⟨hb, hc⟩
    · simp only [Bool.false_eq_true, false_iff]
      intro h
      rcases h with h | ⟨ha, _, _⟩
      · exact absurd h (by simp)
      · omega

/-- C7: NumericComponent succeeds with value n exactly when the base name has
a ".go" or ".sql" extension, contains an underscore separator, and the
component before the first underscore parses with strconv.ParseInt to an
integer n strictly greater than 0; in every other case (unrecognized
extension, no separator, unparsable component, non-positive value) it returns
an error. -/
theorem c7_numericComponent_iff :
    ∀ (name : GoStr) (n : Int),
      NumericComponent name = (n, none) ↔
        ((filepathExt (filepathBase name) = goExtStr
            ∨ filepathExt (filepathBase name) = sqlExtStr)
          ∧ ∃ idx, indexOfChar (filepathBase name) '_' = some idx
              ∧ strconvParseInt ((filepathBase name).take idx) = (n, none) ∧ 0 < n) := by
  intro name n
  unfold NumericComponent
  by_cases hext : filepathExt (filepathBase name) ≠ goExtStr
      ∧ filepathExt (filepathBase name) ≠ sqlExtStr
  · rw [if_pos hext]
    constructor
    · intro h
      exact absurd (congrArg Prod.snd h) (by simp)
    · intro h
      rcases h.1 with h1 | h1
      · exact absurd h1 hext.1
      · exact absurd h1 hext.2
  · rw [if_neg hext]
    have hor : filepathExt (filepathBase name) = goExtStr
        ∨ filepathExt (filepathBase name) = sqlExtStr := by
      tauto
    cases hidx : indexOfChar (filepathBase name) '_' with
    | none =>
      constructor
      · intro h
        exact absurd (congrArg Prod.snd h) (by simp)
      · intro h
        obtain ⟨idx, hi, _⟩ := h.2
        exact absurd hi (by simp)
    | some idx =>
      rcases hr : strconvParseInt ((filepathBase name).take idx) with ⟨rv, re⟩
      show ((match (strconvParseInt ((filepathBase name).take idx)).2 with
              | none =>
                if (strconvParseInt ((filepathBase name).take idx)).1 ≤ 0 then
                  ((0 : Int), some NCErr.nonPositive)
                else ((strconvParseInt ((filepathBase name).take idx)).1, none)
              | some e =>
                ((strconvParseInt ((filepathBase name).take idx)).1,
                  some (NCErr.parseFailed e)))
            = (n, none)) ↔ _
      rw [hr]
      cases re with
      | some e =>
        show (rv, some (NCErr.parseFailed e)) = (n, none) ↔ _
        constructor
        · intro h
          exact absurd (congrArg Prod.snd h) (by simp)
        · intro h
          obtain ⟨idx2, hi, hp, _⟩ := h.2
          injection hi with hi
          subst hi
          rw [hr] at hp
          exact absurd (congrArg Prod.snd hp) (by simp)
      | none =>
        show (if rv ≤ 0 then ((0 : Int), some NCErr.nonPositive) else (rv, none))
            = (n, none) ↔ _
        by_cases hle : rv ≤ 0
        · rw [if_pos hle]
          constructor
          · intro h
            exact absurd (congrArg Prod.snd h) (by simp)
          · intro h
            obtain ⟨idx2, hi, hp, hpos⟩ := h.2
            injection hi with hi
            subst hi
            rw [hr] at hp
            have h1 : rv = n := congrArg Prod.fst hp
            omega
        · rw [if_neg hle]
          constructor
          · intro h
            have h1 : rv = n := congrArg Prod.fst h
            subst h1
            exact ⟨hor, idx, rfl, hr, by omega⟩
          · intro h
            obtain ⟨idx2, hi, hp, hpos⟩ := h.2
            injection hi with hi
            subst hi
            rw [hr] at hp
            have h1 : rv = n := congrArg Prod.fst hp
            subst h1
            rfl

/-- A version carried by no migration of the slice makes Migrations.Current
return ErrNoCurrentVersion. -/
theorem currentNotFound :
    ∀ (ms : Migrations) (c : Int), (∀ m ∈ ms, m.Version ≠ c) →
      Migrations.Current ms c = Except.error GooseErr.noCurrentVersion := by
  intro ms c
  induction ms with
  | nil => intro _; rfl
  | cons m rest ih =>
    intro h
    unfold Migrations.Current
    rw [if_neg (h m (List.mem_cons_self m rest))]
    exact ih (fun x hx => h x (List.mem_cons_of_mem m hx))

/-- C8: Migrations.Next at current version 0 returns the head of the slice
unconditionally — whatever its Previous link holds — and panics with an index
out of range on an empty slice instead of returning the no-next-version
signal; for a non-zero current version carried by no migration it returns the
no-current-version error. -/
theorem c8_next_zero_and_missing :
    (∀ (m : Migration) (ms : Migrations), Migrations.Next (m :: ms) 0 = NextResult.found m)
    ∧ Migrations.Next ([] : Migrations) 0 = NextResult.panicIndexOutOfRange
    ∧ (∀ (ms : Migrations) (c : Int), c ≠ 0 → (∀ m ∈ ms, m.Version ≠ c) →
        Migrations.Next ms c = NextResult.failure GooseErr.noCurrentVersion) := by
  refine ⟨fun m ms => rfl, rfl, ?_⟩
  intro ms c hc h
  unfold Migrations.Next
  rw [if_neg hc, currentNotFound ms c h]

/-- C8 witness: on the one-element slice whose head carries Previous = 42,
Next(0) still returns the head, and Next(9) with 9 absent reports
no-current-version. -/
theorem c8_next_witness :
    Migrations.Next [migFirst] 0 = NextResult.found migFirst
    ∧ Migrations.Next [migFirst] 9 = NextResult.failure GooseErr.noCurrentVersion :=
  ⟨c8_next_zero_and_missing.1 migFirst [],
    c8_next_zero_and_missing.2.2 [migFirst] 9 (by decide)
      (by
        intro m hm
        rw [List.mem_singleton] at hm
        subst hm
        decide)⟩

/-- C9: a migration whose Source extension is neither ".sql" nor ".go" makes
Migration.run — and therefore Up and Down — return nil success with the
database state untouched: the unrecognized kind is a silent no-op. -/
theorem c9_unknown_ext_noop :
    ∀ (m : Migration) (dir : Bool) (env : TxEnv)
      (sqlRunner : DBState → Except GoStr DBState) (db : DBState),
      filepathExt m.Source ≠ sqlExtStr → filepathExt m.Source ≠ goExtStr →
      Migration.run m dir env sqlRunner db = (none, db)
      ∧ Migration.Up m env sqlRunner db = (none, db)
      ∧ Migration.Down m env sqlRunner db = (none, db) := by
  intro m dir env sqlRunner db h1 h2
  have hrun : ∀ d : Bool, Migration.run m d env sqlRunner db = (none, db) := by
    intro d
    unfold Migration.run
    rw [if_neg h1, if_neg h2]
  exact ⟨hrun dir, hrun true, hrun false⟩

/-- C9 witness: the ".txt" migration runs as a no-op on a non-empty state even
under a failing driver oracle. -/
theorem c9_noop_witness :
    Migration.run migTxt true envInsFail runnerOk dbOne = (none, dbOne)
    ∧ Migration.Up migTxt envInsFail runnerOk dbOne = (none, dbOne)
    ∧ Migration.Down migTxt envInsFail runnerOk dbOne = (none, dbOne) :=
  c9_unknown_ext_noop migTxt true envInsFail runnerOk dbOne (by decide) (by decide)

/-- A successful panic-aware insertion produces a permutation of the inserted
element and the list. -/
theorem insertSortEPerm :
    ∀ (m : Migration) (l r : List Migration),
      insertSortE m l = Except.ok r → r.Perm (m :: l) := by
  intro m l
  induction l with
  | nil =>
    intro r h
    injection h with h
    subst h
    exact List.Perm.refl _
  | cons x xs ih =>
    intro r h
    unfold insertSortE Migrations.Less at h
    by_cases hv : m.Version = x.Version
    · rw [if_pos hv] at h
      simp at h
    · rw [if_neg hv] at h
      by_cases hlt : m.Version < x.Version
      · rw [decide_eq_true hlt] at h
        simp at h
        subst h
        exact List.Perm.refl _
      · rw [decide_eq_false hlt] at h
        cases hr : insertSortE m xs with
        | error p => rw [hr] at h; simp at h
        | ok ys =>
          rw [hr] at h
          simp at h
          subst h
          exact List.Perm.trans ((ih ys hr).cons x) (List.Perm.swap m x xs)

/-- A successful panic-aware insertion into a strictly ascending list is
strictly ascending. -/
theorem insertSortEPairwise :
    ∀ (m : Migration) (l r : List Migration),
      l.Pairwise (fun a b => a.Version < b.Version) →
      insertSortE m l = Except.ok r →
      r.Pairwise (fun a b => a.Version < b.Version) := by
  intro m l
  induction l with
  | nil =>
    intro r _ h
    injection h with h
    subst h
    simp
  | cons x xs ih =>
    intro r hp h
    rw [List.pairwise_cons] at hp
    unfold insertSortE Migrations.Less at h
    by_cases hv : m.Version = x.Version
    · rw [if_pos hv] at h
      simp at h
    · rw [if_neg hv] at h
      by_cases hlt : m.Version < x.Version
      · rw [decide_eq_true hlt] at h
        simp at h
        subst h
        rw [List.pairwise_cons]
        refine ⟨?_, List.pairwise_cons.mpr hp⟩
        intro b hb
        rcases List.mem_cons.mp hb with hb | hb
        · subst hb; exact hlt
        · exact lt_trans hlt (hp.1 b hb)
      · rw [decide_eq_false hlt] at h
        cases hr : insertSortE m xs with
        | error p => rw [hr] at h; simp at h
        | ok ys =>
          rw [hr] at h
          simp at h
          subst h
          rw [List.pairwise_cons]
          refine ⟨?_, ih ys hp.2 hr⟩
          intro b hb
          have hmem : b ∈ m :: xs := (insertSortEPerm m xs ys hr).mem_iff.mp hb
          rcases List.mem_cons.mp hmem with hb2 | hb2
          · subst hb2; omega
          · exact hp.1 b hb2

/-- A successful panic-aware sort is a strictly ascending permutation of its
input. -/
theorem sortSortEOk :
    ∀ (ms l : List Migration),
      sortSortE ms = Except.ok l →
      l.Perm ms ∧ l.Pairwise (fun a b => a.Version < b.Version) := by
  intro ms
  induction ms with
  | nil =>
    intro l h
    injection h with h
    subst h
    exact ⟨List.Perm.refl _, List.Pairwise.nil⟩
  | cons m rest ih =>
    intro l h
    unfold sortSortE at h
    cases hs : sortSortE rest with
    | error p => rw [hs] at h; exact absurd h (by simp)
    | ok l0 =>
      rw [hs] at h
      exact ⟨List.Perm.trans (insertSortEPerm m l0 l h) (((ih l0 hs).1).cons m),
        insertSortEPairwise m l0 l (ih l0 hs).2 h⟩

/-- After a registration succeeds, a second registration whose filename yields
the same version key panics as a duplicate. -/
theorem addSecondSameVersionPanics :
    ∀ (fn1 fn2 : GoStr) (reg reg2 : Registry),
      (NumericComponent fn1).1 = (NumericComponent fn2).1 →
      AddNamedMigration fn1 reg = Except.ok reg2 →
      ∃ p, AddNamedMigration fn2 reg2 = Except.error p := by
  intro fn1 fn2 reg reg2 hv hok
  unfold AddNamedMigration at hok ⊢
  rw [← hv]
  cases hlk : List.lookup (NumericComponent fn1).1 reg with
  | some existing =>
    rw [hlk] at hok
    exact absurd hok (by simp)
  | none =>
    rw [hlk] at hok
    injection hok with hok
    subst hok
    have hfind : List.lookup (NumericComponent fn1).1
        (((NumericComponent fn1).1, fn1) :: reg) = some fn1 := by
      simp [List.lookup]
    rw [hfind]
    exact ⟨_, rfl⟩

/-- C5: two migrations sharing a version always raise a panic rather than a
recoverable error — a second AddNamedMigration under an already registered
version panics at registration time, and sorting any migration slice whose
versions are not pairwise distinct panics inside Migrations.Less during
ordering. -/
theorem c5_duplicate_version_panics :
    (∀ (fn1 fn2 : GoStr) (reg reg2 : Registry),
        (NumericComponent fn1).1 = (NumericComponent fn2).1 →
        AddNamedMigration fn1 reg = Except.ok reg2 →
        ∃ p, AddNamedMigration fn2 reg2 = Except.error p)
    ∧ (∀ ms : List Migration, ¬ (ms.map Migration.Version).Nodup →
        ∃ p, sortSortE ms = Except.error p) := by
  refine ⟨addSecondSameVersionPanics, ?_⟩
  intro ms hnd
  cases h : sortSortE ms with
  | error p => exact ⟨p, rfl⟩
  | ok l =>
    exfalso
    obtain ⟨hperm, hpw⟩ := sortSortEOk ms l h
    apply hnd
    have hmap : (l.map Migration.Version).Pairwise (fun a b : Int => a < b) :=
      List.pairwise_map.mpr hpw
    have hnodup : (l.map Migration.Version).Nodup :=
      hmap.imp (fun hab => ne_of_lt hab)
    exact (hperm.map Migration.Version).nodup hnodup

/-- C5 witness: registering "1_a.go" and then "001_b.go" (both version 1)
panics, and sorting two migrations of version 7 panics. -/
theorem c5_panic_witness :
    (∃ p, AddNamedMigration fnGoB regAfterA = Except.error p)
    ∧ (∃ p, sortSortE [migDupA, migDupB] = Except.error p) :=
  ⟨c5_duplicate_version_panics.1 fnGoA fnGoB [] regAfterA (by decide) rfl,
    c5_duplicate_version_panics.2 [migDupA, migDupB] (by decide)⟩

/-- C4 (amended): a registered ".go" migration runs inside one transaction:
success implies begin and commit succeeded, the direction function succeeded
on the transaction state, and the committed state is exactly that state with
the history record inserted (forward) or deleted (backward); every failure
leaves the committed state unchanged; a direction-function failure returns
the wrapped error naming the base of the migration source; and every error is
one of the four transaction-step wraps (begin, function, history Exec,
commit) — the history-Exec and commit wraps do not name the source. -/
theorem c4_go_run_contract :
    ∀ (m : Migration) (dir : Bool) (env : TxEnv)
      (sqlRunner : DBState → Except GoStr DBState) (db : DBState),
      filepathExt m.Source = goExtStr → m.Registered = true →
      runGoContract m dir env sqlRunner db := by
  intro m dir env sqlRunner db hext hreg
  have hne : filepathExt m.Source ≠ sqlExtStr := by rw [hext]; decide
  have hrun : Migration.run m dir env sqlRunner db = runGo m dir env db := by
    unfold Migration.run
    rw [if_neg hne, if_pos hext]
  unfold runGoContract
  rw [hrun]
  cases hb : env.beginErr with
  | some e =>
    have hval : runGo m dir env db = (some (RunErr.beginFailed e), db) := by
      simp [runGo, hreg, hb]
    rw [hval]
    refine ⟨fun h => by simp at h, fun e2 _ => rfl, fun h3 => by simp at h3, ?_⟩
    intro e2 h
    injection h with h
    exact Or.inl ⟨e, h.symm⟩
  | none =>
    cases hf : applyFn (dirFn m dir) db with
    | error msg =>
      have hval : runGo m dir env db
          = (some (RunErr.goMigrationFailed (filepathBase m.Source) msg), db) := by
        simp [runGo, hreg, hb, hf]
      rw [hval]
      refine ⟨fun h => by simp at h, fun e2 _ => rfl, ?_, ?_⟩
      · intro _ msg2 hf2
        injection hf2 with hf2
        rw [hf2]
      · intro e2 h
        injection h with h
        exact Or.inr (Or.inl ⟨msg, h.symm⟩)
    | ok tx1 =>
      cases dir with
      | true =>
        cases hi : env.insertErr with
        | some e =>
          have hval : runGo m true env db = (some (RunErr.execFailed e), db) := by
            simp [runGo, hreg, hb, hf, hi]
          rw [hval]
          refine ⟨fun h => by simp at h, fun e2 _ => rfl, ?_, ?_⟩
          · intro _ msg2 hf2
            exact absurd hf2 (by simp)
          · intro e2 h
            injection h with h
            exact Or.inr (Or.inr (Or.inl ⟨e, h.symm⟩))
        | none =>
          cases hc : env.commitErr with
          | some e =>
            have hval : runGo m true env db = (some (RunErr.commitFailed e), db) := by
              simp [runGo, hreg, hb, hf, hi, hc]
            rw [hval]
            refine ⟨fun h => by simp at h, fun e2 _ => rfl, ?_, ?_⟩
            · intro _ msg2 hf2
              exact absurd hf2 (by simp)
            · intro e2 h
              injection h with h
              exact Or.inr (Or.inr (Or.inr ⟨e, h.symm⟩))
          | none =>
            have hval : runGo m true env db = (none, insertRecord m.Version true tx1) := by
              simp [runGo, hreg, hb, hf, hi, hc]
            rw [hval]
            refine ⟨fun _ => ⟨rfl, rfl, tx1, rfl, rfl⟩, fun e2 h => by simp at h, ?_,
              fun e2 h => by simp at h⟩
            intro _ msg2 hf2
            exact absurd hf2 (by simp)
      | false =>
        cases hd : env.deleteErr with
        | some e =>
          have hval : runGo m false env db = (some (RunErr.execFailed e), db) := by
            simp [runGo, hreg, hb, hf, hd]
          rw [hval]
          refine ⟨fun h => by simp at h, fun e2 _ => rfl, ?_, ?_⟩
          · intro _ msg2 hf2
            exact absurd hf2 (by simp)
          · intro e2 h
            injection h with h
            exact Or.inr (Or.inr (Or.inl ⟨e, h.symm⟩))
        | none =>
          cases hc : env.commitErr with
          | some e =>
            have hval : runGo m false env db = (some (RunErr.commitFailed e), db) := by
              simp [runGo, hreg, hb, hf, hd, hc]
            rw [hval]
            refine ⟨fun h => by simp at h, fun e2 _ => rfl, ?_, ?_⟩
            · intro _ msg2 hf2
              exact absurd hf2 (by simp)
            · intro e2 h
              injection h with h
              exact Or.inr (Or.inr (Or.inr ⟨e, h.symm⟩))
          | none =>
            have hval : runGo m false env db = (none, deleteRecord m.Version tx1) := by
              simp [runGo, hreg, hb, hf, hd, hc]
            rw [hval]
            refine ⟨fun _ => ⟨rfl, rfl, tx1, rfl, rfl⟩, fun e2 h => by simp at h, ?_,
              fun e2 h => by simp at h⟩
            intro _ msg2 hf2
            exact absurd hf2 (by simp)

/-- C4 witness: the contract instantiated at the registered "007_x.go"
migration with an all-success driver oracle on the empty state. -/
theorem c4_contract_witness :
    runGoContract migGoOk true envOk runnerOk [] :=
  c4_go_run_contract migGoOk true envOk runnerOk [] (by decide) rfl

/-- C4 (counterexample): when the history-insert Exec fails, the returned
wrapped error is the transaction-step wrap "failed to execute transaction",
which names no migration source — the claim that every such failure returns
an error identifying the migration source is false. -/
theorem c4_exec_error_names_no_source :
    Migration.run migGoOk true envInsFail runnerOk []
        = (some (RunErr.execFailed boomMsg), [])
    ∧ errSource (RunErr.execFailed boomMsg) = none := ⟨rfl, rfl⟩

/-- The four possible result shapes of strconv.ParseInt: syntax failure with
value 0, range failure clamped to either 64-bit extreme, or success. -/
theorem strconvParseIntCases :
    ∀ s : GoStr,
      strconvParseInt s = (0, some NumErr.malformed)
      ∨ strconvParseInt s = (int64Min, some NumErr.outOfRange)
      ∨ strconvParseInt s = (int64Max, some NumErr.outOfRange)
      ∨ (strconvParseInt s).2 = none := by
  intro s
  unfold strconvParseInt
  split
  · exact Or.inl rfl
  · split
    · split
      · exact Or.inr (Or.inl rfl)
      · exact Or.inr (Or.inr (Or.inr rfl))
    · split
      · exact Or.inr (Or.inr (Or.inl rfl))
      · exact Or.inr (Or.inr (Or.inr rfl))

/-- A syntax failure of strconv.ParseInt always comes with value 0. -/
theorem parseIntMalformedVal :
    ∀ s : GoStr, (strconvParseInt s).2 = some NumErr.malformed →
      (strconvParseInt s).1 = 0 := by
  intro s h
  rcases strconvParseIntCases s with hc | hc | hc | hc
  · rw [hc]
  · rw [hc] at h
    exact absurd h (by decide)
  · rw [hc] at h
    exact absurd h (by decide)
  · rw [hc] at h
    exact absurd h (by simp)

/-- A range failure of strconv.ParseInt always comes with a clamped 64-bit
extreme as its value. -/
theorem parseIntRangeVal :
    ∀ s : GoStr, (strconvParseInt s).2 = some NumErr.outOfRange →
      (strconvParseInt s).1 = int64Max ∨ (strconvParseInt s).1 = int64Min := by
  intro s h
  rcases strconvParseIntCases s with hc | hc | hc | hc
  · rw [hc] at h
    exact absurd h (by decide)
  · rw [hc]
    exact Or.inr rfl
  · rw [hc]
    exact Or.inl rfl
  · rw [hc] at h
    exact absurd h (by simp)

/-- The value NumericComponent returns alongside an error: 0 for every error
except the range overflow of the numeric component, where it is a clamped
64-bit extreme. -/
theorem numericComponentErrVal :
    ∀ (name : GoStr) (e : NCErr),
      (NumericComponent name).2 = some e →
      (e ≠ NCErr.parseFailed NumErr.outOfRange → (NumericComponent name).1 = 0)
      ∧ (e = NCErr.parseFailed NumErr.outOfRange →
          (NumericComponent name).1 = int64Max ∨ (NumericComponent name).1 = int64Min) := by
  intro name e
  by_cases hext : filepathExt (filepathBase name) ≠ goExtStr
      ∧ filepathExt (filepathBase name) ≠ sqlExtStr
  · have hNC : NumericComponent name = (0, some NCErr.notMigrationType) := by
      unfold NumericComponent
      rw [if_pos hext]
    rw [hNC]
    intro h
    injection h with h
    subst h
    exact ⟨fun _ => rfl, fun habs => absurd habs (by decide)⟩
  · cases hidx : indexOfChar (filepathBase name) '_' with
    | none =>
      have hNC : NumericComponent name = (0, some NCErr.noSeparator) := by
        unfold NumericComponent
        rw [if_neg hext, hidx]
      rw [hNC]
      intro h
      injection h with h
      subst h
      exact ⟨fun _ => rfl, fun habs => absurd habs (by decide)⟩
    | some idx =>
      rcases hr : strconvParseInt ((filepathBase name).take idx) with ⟨rv, re⟩
      cases re with
      | none =>
        by_cases hle : rv ≤ 0
        · have hNC : NumericComponent name = (0, some NCErr.nonPositive) := by
            unfold NumericComponent
            rw [if_neg hext, hidx]
            show (match (strconvParseInt ((filepathBase name).take idx)).2 with
                  | none =>
                    if (strconvParseInt ((filepathBase name).take idx)).1 ≤ 0 then
                      ((0 : Int), some NCErr.nonPositive)
                    else ((strconvParseInt ((filepathBase name).take idx)).1, none)
                  | some e2 =>
                    ((strconvParseInt ((filepathBase name).take idx)).1,
                      some (NCErr.parseFailed e2)))
                = (0, some NCErr.nonPositive)
            rw [hr]
            show (if rv ≤ 0 then ((0 : Int), some NCErr.nonPositive) else (rv, none))
                = (0, some NCErr.nonPositive)
            rw [if_pos hle]
          rw [hNC]
          intro h
          injection h with h
          subst h
          exact ⟨fun _ => rfl, fun habs => absurd habs (by decide)⟩
        · have hNC : NumericComponent name = (rv, none) := by
            unfold NumericComponent
            rw [if_neg hext, hidx]
            show (match (strconvParseInt ((filepathBase name).take idx)).2 with
                  | none =>
                    if (strconvParseInt ((filepathBase name).take idx)).1 ≤ 0 then
                      ((0 : Int), some NCErr.nonPositive)
                    else ((strconvParseInt ((filepathBase name).take idx)).1, none)
                  | some e2 =>
                    ((strconvParseInt ((filepathBase name).take idx)).1,
                      some (NCErr.parseFailed e2)))
                = (rv, none)
            rw [hr]
            show (if rv ≤ 0 then ((0 : Int), some NCErr.nonPositive) else (rv, none))
                = (rv, none)
            rw [if_neg hle]
          rw [hNC]
          intro h
          exact absurd h (by simp)
      | some e2 =>
        have hNC : NumericComponent name = (rv, some (NCErr.parseFailed e2)) := by
          unfold NumericComponent
          rw [if_neg hext, hidx]
          show (match (strconvParseInt ((filepathBase name).take idx)).2 with
                | none =>
                  if (strconvParseInt ((filepathBase name).take idx)).1 ≤ 0 then
                    ((0 : Int), some NCErr.nonPositive)
                  else ((strconvParseInt ((filepathBase name).take idx)).1, none)
                | some e3 =>
                  ((strconvParseInt ((filepathBase name).take idx)).1,
                    some (NCErr.parseFailed e3)))
              = (rv, some (NCErr.parseFailed e2))
          rw [hr]
        rw [hNC]
        intro h
        injection h with h
        subst h
        constructor
        · intro hne
          cases e2 with
          | outOfRange => exact absurd rfl hne
          | malformed =>
            have hv := parseIntMalformedVal ((filepathBase name).take idx) (by rw [hr])
            rw [hr] at hv
            exact hv
        · intro heq
          injection heq with heq
          subst heq
          have hv := parseIntRangeVal ((filepathBase name).take idx) (by rw [hr])
          rw [hr] at hv
          exact hv

/-- C10 (amended): AddNamedMigration never reports a version-extraction
failure — the outcome is always either a registration under the value
NumericComponent returned alongside the error or a duplicate panic; that
value is 0 for an unrecognized extension, a missing separator, an unparsable
component, or a non-positive version, while a range-overflowing numeric
component registers under the clamped 64-bit extreme instead of 0; and after
one registration under a value-0 extraction error a second registration with
any filename failing extraction with a value-0 error panics as a
duplicate. -/
theorem c10_registration_amended :
    (∀ (fn : GoStr) (reg : Registry),
        AddNamedMigration fn reg = Except.ok (((NumericComponent fn).1, fn) :: reg)
        ∨ ∃ p, AddNamedMigration fn reg = Except.error p)
    ∧ (∀ (fn : GoStr) (e : NCErr), (NumericComponent fn).2 = some e →
        e ≠ NCErr.parseFailed NumErr.outOfRange → (NumericComponent fn).1 = 0)
    ∧ (∀ fn : GoStr, (NumericComponent fn).2 = some (NCErr.parseFailed NumErr.outOfRange) →
        (NumericComponent fn).1 = int64Max ∨ (NumericComponent fn).1 = int64Min)
    ∧ (∀ (fn1 fn2 : GoStr) (reg reg2 : Registry) (e1 e2 : NCErr),
        (NumericComponent fn1).2 = some e1 → e1 ≠ NCErr.parseFailed NumErr.outOfRange →
        (NumericComponent fn2).2 = some e2 → e2 ≠ NCErr.parseFailed NumErr.outOfRange →
        AddNamedMigration fn1 reg = Except.ok reg2 →
        ∃ p, AddNamedMigration fn2 reg2 = Except.error p) := by
  refine ⟨?_, ?_, ?_, ?_⟩
  · intro fn reg
    cases hlk : List.lookup (NumericComponent fn).1 reg with
    | some ex =>
      refine Or.inr ⟨GoosePanic.duplicateRegistration fn ex, ?_⟩
      unfold AddNamedMigration
      rw [hlk]
    | none =>
      refine Or.inl ?_
      unfold AddNamedMigration
      rw [hlk]
  · intro fn e h hne
    exact (numericComponentErrVal fn e h).1 hne
  · intro fn h
    exact (numericComponentErrVal fn _ h).2 rfl
  · intro fn1 fn2 reg reg2 e1 e2 he1 hne1 he2 hne2 hok
    have h1 : (NumericComponent fn1).1 = 0 := (numericComponentErrVal fn1 e1 he1).1 hne1
    have h2 : (NumericComponent fn2).1 = 0 := (numericComponentErrVal fn2 e2 he2).1 hne2
    exact addSecondSameVersionPanics fn1 fn2 reg reg2 (by rw [h1, h2]) hok

/-- C10 (counterexample): the filename "99999999999999999999_x.go" fails
extraction (range overflow), yet AddNamedMigration registers it under the
clamped maximum 64-bit value, not under version 0 as the claim states. -/
theorem c10_overflow_registers_max :
    ((NumericComponent fnOverflow).2).isSome = true
    ∧ (NumericComponent fnOverflow).1 = int64Max
    ∧ AddNamedMigration fnOverflow [] = Except.ok [(int64Max, fnOverflow)]
    ∧ int64Max ≠ 0 :=
  ⟨rfl, rfl, rfl, by decide⟩

/-- C10 witness: "x_y.txt" fails extraction with value 0, and after it is
registered, registering "zz.go" (another value-0 extraction failure) panics
as a duplicate of version 0. -/
theorem c10_amended_witness :
    (NumericComponent fnTxt).1 = 0
    ∧ (∃ p, AddNamedMigration fnGoNoSep [((0 : Int), fnTxt)] = Except.error p) :=
  ⟨c10_registration_amended.2.1 fnTxt NCErr.notMigrationType rfl (by decide),
    c10_registration_amended.2.2.2 fnTxt fnGoNoSep [] [((0 : Int), fnTxt)]
      NCErr.notMigrationType NCErr.noSeparator rfl (by decide) rfl (by decide) rfl⟩

end Goose
